import Mathlib

/-!
Verification of the dino repository: a shallow embedding of its worker pool,
swappable handles, watcher, bundler module loaders, import map, build cache
and request assembly, with theorems settling the specification claims.
-/

set_option maxHeartbeats 1000000

/-! ## Shared association-list helpers

Rust `HashMap` insertion (`collect`, `obj.set`) replaces the value of an
existing key and otherwise adds the entry; we model maps as association
lists with in-place replacement. -/

/-- Insert `(k, v)` into an association list, replacing the entry of an
existing key `k` in place, appending otherwise. -/
def assocSet {α : Type} : List (String × α) → String → α → List (String × α)
  | [], k, v => [(k, v)]
  | q :: t, k, v => if q.1 = k then (k, v) :: t else q :: assocSet t k v

/-- Look a key up in an association list (first match). -/
def assocLookup {α : Type} (l : List (String × α)) (k : String) : Option α :=
  (l.find? (fun q => q.1 == k)).map (fun q => q.2)

theorem assocLookup_nil {α : Type} (k : String) : assocLookup ([] : List (String × α)) k = none := rfl

theorem assocLookup_cons {α : Type} (q : String × α) (t : List (String × α)) (k : String) :
    assocLookup (q :: t) k = if q.1 = k then some q.2 else assocLookup t k := by
  by_cases h : q.1 = k
  · simp [assocLookup, List.find?, h]
  · have hb : (q.1 == k) = false := beq_eq_false_iff_ne.mpr h
    simp [assocLookup, List.find?, hb, h]

theorem assocLookup_set {α : Type} (l : List (String × α)) (k k' : String) (v : α) :
    assocLookup (assocSet l k v) k' = if k = k' then some v else assocLookup l k' := by
  induction l with
  | nil =>
    by_cases h : k = k' <;> simp [assocSet, assocLookup_cons, assocLookup_nil, h]
  | cons q t ih =>
    simp only [assocSet]
    by_cases hq : q.1 = k
    · rw [if_pos hq, assocLookup_cons, assocLookup_cons]
      by_cases h : k = k'
      · simp [h]
      · have hqk : ¬ q.1 = k' := by rw [hq]; exact h
        simp [h, hqk]
    · rw [if_neg hq, assocLookup_cons, assocLookup_cons, ih]
      by_cases h : k = k'
      · subst h
        simp [hq]
      · simp [h]

/-! ## C1: the per-tenant worker pool (src/dino-server/src/engine.rs)

`JsWorkerPool` keeps a `Vec` of request senders and an atomic counter
`indexes : AtomicUsize`.  `run` fetches-and-increments the counter —
`fetch_add` wraps at `2^64` on a 64-bit `usize` — reduces the fetched
value modulo the number of senders and sends on the channel at that
index.  The embedding keeps the number of senders and the counter (as a
`Nat` reduced modulo `2^64` exactly where the machine integer wraps); the
sequence of chosen worker indexes is recorded by `dispatchTrace`. -/

/-- `usize::MAX + 1` (that is, `2^64`) on the 64-bit targets the server
runs on: the modulus at which `AtomicUsize::fetch_add` wraps. -/
def USIZE : Nat := 18446744073709551616

/-- State of `JsWorkerPool`: `senders` is the length of the sender vector,
`indexes` the value of the atomic counter (always `< USIZE`). -/
structure JsWorkerPool where
  senders : Nat
  indexes : Nat
deriving DecidableEq

/-- `JsWorkerPool::new(size, module)`: `size` sender channels, counter `0`. -/
def JsWorkerPool.new (size : Nat) : JsWorkerPool :=
  { senders := size, indexes := 0 }

/-- `JsWorkerPool::run`: fetch-and-increment the counter (wrapping at
`USIZE`, as `AtomicUsize::fetch_add` does), reduce the fetched value
modulo the pool size; the second component is the worker index the
request is sent to. -/
def JsWorkerPool.run (p : JsWorkerPool) : JsWorkerPool × Nat :=
  ({ senders := p.senders, indexes := (p.indexes + 1) % USIZE }, p.indexes % p.senders)

/-- The pool state after `m` successive dispatches. -/
def JsWorkerPool.runs (p : JsWorkerPool) : Nat → JsWorkerPool
  | 0 => p
  | m + 1 => ((p.runs m).run).1

/-- The sequence of worker indexes chosen by `m` successive dispatches on a
fresh pool of size `n`. -/
def dispatchTrace (n : Nat) : Nat → List Nat
  | 0 => []
  | m + 1 => dispatchTrace n m ++ [(((JsWorkerPool.new n).runs m).run).2]

/-- How many of the first `m` dispatches worker `i` receives. -/
def receivedCount (n m i : Nat) : Nat := (dispatchTrace n m).count i

theorem JsWorkerPool.runs_spec (n m : Nat) :
    (JsWorkerPool.new n).runs m = { senders := n, indexes := m % USIZE } := by
  induction m with
  | zero => simp [JsWorkerPool.runs, JsWorkerPool.new]
  | succ m ih => simp [JsWorkerPool.runs, ih, JsWorkerPool.run, Nat.mod_add_mod]

theorem dispatchTrace_succ (n m : Nat) :
    dispatchTrace n (m + 1) = dispatchTrace n m ++ [(m % USIZE) % n] := by
  simp [dispatchTrace, JsWorkerPool.runs_spec, JsWorkerPool.run]

theorem receivedCount_succ (n m i : Nat) :
    receivedCount n (m + 1) i =
      receivedCount n m i + (if (m % USIZE) % n = i then 1 else 0) := by
  simp only [receivedCount, dispatchTrace_succ, List.count_append]
  by_cases h : (m % USIZE) % n = i <;> simp [h, List.count_singleton, List.count_cons]

theorem succ_div_mod_aux (n m i : Nat) (hn : 0 < n) (hi : i < n) :
    (m + 1) / n + (if i < (m + 1) % n then 1 else 0) =
      m / n + (if i < m % n then 1 else 0) + (if m % n = i then 1 else 0) := by
  have hmr : m % n < n := Nat.mod_lt _ hn
  have hdm : n * (m / n) + m % n = m := Nat.div_add_mod m n
  have hmul : n * (m / n + 1) = n * (m / n) + n := by rw [Nat.mul_add, Nat.mul_one]
  by_cases hlast : m % n + 1 = n
  · have h1 : m + 1 = n * (m / n + 1) := by omega
    have hdiv : (m + 1) / n = m / n + 1 := by
      rw [h1, Nat.mul_div_cancel_left _ hn]
    have hmod : (m + 1) % n = 0 := by
      rw [h1, Nat.mul_mod_right]
    rw [hdiv, hmod]
    by_cases hieq : m % n = i
    · simp [hieq]
    · have hlt2 : i < m % n := by omega
      simp [hieq, hlt2]
  · have h1 : m + 1 = n * (m / n) + (m % n + 1) := by omega
    have hlt : m % n + 1 < n := by omega
    have hdiv : (m + 1) / n = m / n := by
      rw [h1, Nat.mul_add_div hn, Nat.div_eq_of_lt hlt, Nat.add_zero]
    have hmod : (m + 1) % n = m % n + 1 := by
      rw [h1, Nat.mul_add_mod, Nat.mod_eq_of_lt hlt]
    rw [hdiv, hmod]
    by_cases hieq : m % n = i
    · simp [hieq]
    · by_cases h2 : i < m % n
      · have h3 : i < m % n + 1 := by omega
        simp [hieq, h2, h3]
      · have h3 : ¬ i < m % n + 1 := by omega
        simp [hieq, h2, h3]

theorem receivedCount_formula (n m i : Nat) (hn : 0 < n) (hi : i < n)
    (hm : m ≤ USIZE) :
    receivedCount n m i = m / n + (if i < m % n then 1 else 0) := by
  revert hm
  induction m with
  | zero =>
    intro _
    simp [receivedCount, dispatchTrace]
  | succ m ih =>
    intro hm
    have hmW : m < USIZE := Nat.lt_of_succ_le hm
    have hmod : m % USIZE = m := Nat.mod_eq_of_lt hmW
    rw [receivedCount_succ, ih (Nat.le_of_lt hmW), hmod,
      succ_div_mod_aux n m i hn hi]

/-- C1 counterexample: the for-every-M balance fails past the counter
wrap.  With `N = 3` workers and `M = 2^64 + 1` dispatches, the wrapped
counter revisits worker `0` (the `2^64`-th fetch returns `0` again), so
worker `0` receives `⌊M/N⌋ + 2` requests — neither `⌊M/N⌋` nor
`⌈M/N⌉`. -/
theorem C1_counterexample :
    ¬ (receivedCount 3 (USIZE + 1) 0 = (USIZE + 1) / 3 ∨
       receivedCount 3 (USIZE + 1) 0 = (USIZE + 1 + 3 - 1) / 3) := by
  have hmod3 : USIZE % 3 = 1 := by decide
  have hif0 : (if 0 < USIZE % 3 then (1 : Nat) else 0) = 1 := by
    simp [hmod3]
  have hifW : (if (USIZE % USIZE) % 3 = 0 then (1 : Nat) else 0) = 1 := by
    rw [Nat.mod_self]
    norm_num
  have h0 : receivedCount 3 USIZE 0 = USIZE / 3 + 1 := by
    rw [receivedCount_formula 3 USIZE 0 (by decide) (by decide) (le_refl USIZE), hif0]
  have hval : receivedCount 3 (USIZE + 1) 0 = USIZE / 3 + 2 := by
    rw [receivedCount_succ 3 USIZE 0, hifW, h0]
  have hdm : 3 * (USIZE / 3) + 1 = USIZE := by
    have h := Nat.div_add_mod USIZE 3
    rw [hmod3] at h
    exact h
  have hd1 : (USIZE + 1) / 3 = USIZE / 3 := by
    have he : USIZE + 1 = 3 * (USIZE / 3) + 2 := by omega
    rw [he, Nat.mul_add_div (by norm_num),
      Nat.div_eq_of_lt (show (2 : Nat) < 3 by norm_num), Nat.add_zero]
  have hd2 : (USIZE + 1 + 3 - 1) / 3 = USIZE / 3 + 1 := by
    have he : USIZE + 1 + 3 - 1 = 3 * (USIZE / 3) + 4 := by omega
    rw [he, Nat.mul_add_div (by norm_num)]
  intro hcon
  rcases hcon with h | h
  · rw [hval, hd1] at h
    omega
  · rw [hval, hd2] at h
    omega

/-- C1 amended: each call to `JsWorkerPool::run` fetches and increments
the internal counter (`AtomicUsize::fetch_add`, wrapping at `2^64`),
reduces the fetched value modulo the pool size and sends to the worker at
that index; consequently over `M` dispatches with `N < M ≤ 2^64` on a
pool of size `N` every worker receives `⌊M/N⌋` or `⌈M/N⌉` requests.
Past the wrap the balance can fail (see the counterexample at
`M = 2^64 + 1`). -/
theorem C1_round_robin (n m : Nat) (hn : 0 < n) (_hm : n < m) (hW : m ≤ USIZE) :
    (∀ p : JsWorkerPool, p.senders = n →
        p.run = ({ senders := n, indexes := (p.indexes + 1) % USIZE }, p.indexes % n)) ∧
    (∀ i, i < n →
        receivedCount n m i = m / n ∨ receivedCount n m i = (m + n - 1) / n) := by
  constructor
  · intro p hp
    simp [JsWorkerPool.run, hp]
  · intro i hi
    rw [receivedCount_formula n m i hn hi hW]
    have hmr : m % n < n := Nat.mod_lt _ hn
    have hdm : n * (m / n) + m % n = m := Nat.div_add_mod m n
    have hmul : n * (m / n + 1) = n * (m / n) + n := by rw [Nat.mul_add, Nat.mul_one]
    by_cases h : i < m % n
    · right
      have hceil : (m + n - 1) / n = m / n + 1 := by
        have h1 : m + n - 1 = n * (m / n + 1) + (m % n - 1) := by omega
        have h2 : m % n - 1 < n := by omega
        rw [h1, Nat.mul_add_div hn, Nat.div_eq_of_lt h2, Nat.add_zero]
      simp [h, hceil]
    · left
      simp [h]

theorem C1_round_robin_witness :
    receivedCount 2 5 0 = 5 / 2 ∨ receivedCount 2 5 0 = (5 + 2 - 1) / 2 :=
  (C1_round_robin 2 5 (by decide) (by decide) (by decide)).2 0 (by decide)

/-! ## C2: the swappable worker pool (src/dino-server/src/worker_pool.rs)

`SwappableWorkerPool` wraps an `Arc<ArcSwap<WorkerPoolInner>>`.  `load`
takes an owned snapshot (`load_full`), `swap` builds a fresh
`JsWorkerPool::new(self.size, &code)` and publishes it with `store`.  The
embedding keeps every inner ever published in an append-only heap; a
snapshot is a reference (index) into that heap, and `swap` only appends a
new inner and moves the `cur` pointer. -/

/-- `WorkerPoolInner`: the immutable inner published behind the swap. -/
structure WorkerPoolInner where
  code : String
  pool : JsWorkerPool
deriving DecidableEq

/-- State of a `SwappableWorkerPool` handle: the configured `size`, the
append-only heap of every inner ever allocated, and the index of the
currently published inner. -/
structure SwappableWorkerPool where
  size : Nat
  heap : List WorkerPoolInner
  cur : Nat
deriving DecidableEq

/-- `SwappableWorkerPool::try_new(code, size)`. -/
def SwappableWorkerPool.tryNew (code : String) (size : Nat) : SwappableWorkerPool :=
  { size := size, heap := [{ code := code, pool := JsWorkerPool.new size }], cur := 0 }

/-- `SwappableWorkerPool::swap(code)`: allocate a new inner with a fresh
`JsWorkerPool::new(self.size, &code)` and publish it; nothing already in
the heap is touched. -/
def SwappableWorkerPool.swap (s : SwappableWorkerPool) (code : String) : SwappableWorkerPool :=
  { size := s.size,
    heap := s.heap ++ [{ code := code, pool := JsWorkerPool.new s.size }],
    cur := s.heap.length }

/-- `SwappableWorkerPool::load()`: an owned snapshot of the currently
published inner (a reference into the heap). -/
def SwappableWorkerPool.load (s : SwappableWorkerPool) : Nat := s.cur

/-- Dereference a snapshot against the current heap. -/
def derefSnapshot (s : SwappableWorkerPool) (snap : Nat) : Option WorkerPoolInner :=
  s.heap[snap]?

/-- C2: a snapshot obtained with `load()` before a `swap(new_code)` and held
across the swap still dereferences to its original inner; the swap
publishes a new inner (built from `new_code` and the fixed pool size)
without invalidating or mutating the snapshot's inner. -/
theorem C2_old_snapshot_liveness (s : SwappableWorkerPool) (code : String)
    (hwf : s.cur < s.heap.length) :
    derefSnapshot (s.swap code) s.load = derefSnapshot s s.load ∧
    (derefSnapshot s s.load).isSome = true ∧
    derefSnapshot (s.swap code) ((s.swap code).load) =
      some { code := code, pool := JsWorkerPool.new s.size } := by
  refine ⟨?_, ?_, ?_⟩
  · simp only [derefSnapshot, SwappableWorkerPool.swap, SwappableWorkerPool.load]
    rw [List.getElem?_append, if_pos hwf]
  · simp only [derefSnapshot, SwappableWorkerPool.load]
    simp [List.getElem?_eq_getElem hwf]
  · simp [derefSnapshot, SwappableWorkerPool.swap, SwappableWorkerPool.load]

theorem C2_old_snapshot_liveness_witness :
    derefSnapshot ((SwappableWorkerPool.tryNew "v1" 2).swap "v2")
        (SwappableWorkerPool.tryNew "v1" 2).load =
      derefSnapshot (SwappableWorkerPool.tryNew "v1" 2)
        (SwappableWorkerPool.tryNew "v1" 2).load :=
  (C2_old_snapshot_liveness (SwappableWorkerPool.tryNew "v1" 2) "v2" (by decide)).1

/-! ## C3: crossing `Req` into the script engine
(src/dino-macros/src/process_js.rs, `process_into_js`; the same expansion
is hand-written in src/dino/src/engine.rs)

The generated `IntoJs` impl runs `let obj = ctx.globals();` and then
`obj.set(stringify!(field), self.field)?` for every field of `Req`, in
declaration order, finally returning `obj` — i.e. it writes the request's
fields into the context's global object and hands that global object to
the handler. -/

/-- A script-engine value, as far as `Req`'s fields need. -/
inductive JsValue where
  | vStr (s : String)
  | vMap (m : List (String × String))
  | vOptStr (s : Option String)
deriving DecidableEq

/-- The property map of the context's global object. -/
abbrev Globals := List (String × JsValue)

/-- The `Req` struct of src/dino-server/src/engine.rs. -/
structure Req where
  method : String
  url : String
  query : List (String × String)
  params : List (String × String)
  headers : List (String × String)
  body : Option String
deriving DecidableEq

/-- The derived `IntoJs for Req` (from `process_into_js`): sets the six
fields, in declaration order, on `ctx.globals()` and returns that object.
The first component is the value handed to the script (the contents of the
returned object at hand-off), the second the context's globals after the
conversion; in the code both are the same global object. -/
def Req.intoJs (req : Req) (g : Globals) : Globals × Globals :=
  let g1 := assocSet g "method" (JsValue.vStr req.method)
  let g2 := assocSet g1 "url" (JsValue.vStr req.url)
  let g3 := assocSet g2 "query" (JsValue.vMap req.query)
  let g4 := assocSet g3 "params" (JsValue.vMap req.params)
  let g5 := assocSet g4 "headers" (JsValue.vMap req.headers)
  let g6 := assocSet g5 "body" (JsValue.vOptStr req.body)
  (g6, g6)

/-- C3 counterexample: the conversion does not build a per-request object:
it writes into the context's global object and returns it.  Concretely,
with a leftover property `secret` written by request 1's handler, the
object handed to request 2's handler still exposes `secret` —
script-visible data of one request observed while handling the other —
and the conversion mutates the shared globals. -/
theorem C3_counterexample :
    assocLookup
        (Req.intoJs
            { method := "GET", url := "/b", query := [], params := [],
              headers := [], body := none }
            [("secret", JsValue.vStr "from-request-1")]).1
        "secret" = some (JsValue.vStr "from-request-1") ∧
    (Req.intoJs
        { method := "GET", url := "/b", query := [], params := [],
          headers := [], body := none }
        [("secret", JsValue.vStr "from-request-1")]).2 ≠
      [("secret", JsValue.vStr "from-request-1")] := by
  constructor
  · rfl
  · decide

/-- C3 amended: the conversion of `Req` writes the six fields key-by-key
into the context's global object and returns that same global object (the
handler-visible value IS the shared globals); the field keys do carry the
fresh request's values, but every other property of the globals — in
particular anything a previous request's handler stored there — survives
and is visible to the new request's handler. -/
theorem C3_globals_shared (req : Req) (g : Globals) (k : String)
    (hk : k ∉ ["method", "url", "query", "params", "headers", "body"]) :
    (Req.intoJs req g).2 = (Req.intoJs req g).1 ∧
    assocLookup (Req.intoJs req g).1 "method" = some (JsValue.vStr req.method) ∧
    assocLookup (Req.intoJs req g).1 "body" = some (JsValue.vOptStr req.body) ∧
    assocLookup (Req.intoJs req g).1 k = assocLookup g k := by
  simp only [List.mem_cons, List.mem_singleton] at hk
  push_neg at hk
  obtain ⟨h1, h2, h3, h4, h5, h6, -⟩ := hk
  refine ⟨rfl, ?_, ?_, ?_⟩
  · simp [Req.intoJs, assocLookup_set]
  · simp [Req.intoJs, assocLookup_set]
  · simp only [Req.intoJs]
    rw [assocLookup_set, if_neg (Ne.symm h6), assocLookup_set, if_neg (Ne.symm h5),
      assocLookup_set, if_neg (Ne.symm h4), assocLookup_set, if_neg (Ne.symm h3),
      assocLookup_set, if_neg (Ne.symm h2), assocLookup_set, if_neg (Ne.symm h1)]

theorem C3_globals_shared_witness :
    assocLookup
        (Req.intoJs
            { method := "GET", url := "/b", query := [], params := [],
              headers := [], body := none }
            [("secret", JsValue.vStr "s")]).1
        "secret" = assocLookup [("secret", JsValue.vStr "s")] "secret" :=
  (C3_globals_shared
      { method := "GET", url := "/b", query := [], params := [],
        headers := [], body := none }
      [("secret", JsValue.vStr "s")] "secret" (by decide)).2.2.2

/-! ## Path helpers (Rust `std::path::Path` operations used by the code)

`extension()` is the part of the final component after its last `.`,
unless the component has no `.` or starts with its only `.` (hidden
files).  `with_extension(ext)` strips the current extension and appends
`.ext`. -/

/-- Split a character list at every occurrence of `c` (like `str::split`). -/
def splitOnChar (c : Char) : List Char → List (List Char)
  | [] => [[]]
  | x :: t =>
      let r := splitOnChar c t
      if x = c then [] :: r
      else
        match r with
        | [] => [[x]]
        | h :: t2 => (x :: h) :: t2

/-- The final non-empty path component (Rust `Path::file_name`, as a
string; `""` when there is none). -/
def lastComponent (p : String) : String :=
  ⟨((splitOnChar '/' p.data).filter (fun comp => comp ≠ [])).getLastD []⟩

/-- Rust `Path::extension()`: the part of the final component after its
last `.`; `none` when the component has no `.` or is a hidden file whose
only `.` leads. -/
def extOf (p : String) : Option String :=
  match splitOnChar '.' (lastComponent p).data with
  | [] => none
  | [_] => none
  | first :: rest =>
      if first = [] ∧ rest.length = 1 then none
      else some ⟨(first :: rest).getLastD []⟩

/-- Rust `Path::with_extension(ext)` for a non-empty `ext`: strip the
current extension, then append `.ext`. -/
def withExtension (p ext : String) : String :=
  match extOf p with
  | some e => ⟨p.data.take (p.data.length - (e.length + 1))⟩ ++ "." ++ ext
  | none => p ++ "." ++ ext

/-- Does `pre` occur at the start of `s` (Rust `str::starts_with`)? -/
def strStartsWith (s pre : String) : Bool := pre.data.isPrefixOf s.data

/-- Does `suf` occur at the end of `s` (Rust `str::ends_with`)? -/
def strEndsWith (s suf : String) : Bool := suf.data.isSuffixOf s.data

/-- Replace the first occurrence of `pat` in a list by `rep`. -/
def replaceFirstAux (pat rep : List Char) : List Char → List Char
  | [] => []
  | x :: t =>
      if pat.isPrefixOf (x :: t) then rep ++ List.drop pat.length (x :: t)
      else x :: replaceFirstAux pat rep t

/-- Rust `str::replacen(pat, rep, 1)`: replace the first occurrence of
`pat` (if any) in `s` by `rep`. -/
def replaceFirst (s pat rep : String) : String :=
  ⟨replaceFirstAux pat.data rep.data s.data⟩

/-- Rust `String::truncate(n)` (equivalently, keep the first `n`
characters; the hashes it is applied to are ASCII hex). -/
def strTake (s : String) (n : Nat) : String := ⟨s.data.take n⟩

/-! ## C4: worker-thread lifetime (src/dino-server/src/engine.rs, `JsWorkerPool::new`)

Each spawned thread runs
`while let Some(((name, req), res_tx)) = rx.blocking_recv() { let res = worker.run(&name, req).unwrap(); ... }`.
`JsWorker::run` returns `Err` when the handler is missing or not a
function, when the script throws, or when the resolved value has the wrong
shape — and the loop calls `.unwrap()` on it, which panics the thread. -/

/-- The `Res` struct of src/dino-server/src/engine.rs. -/
structure Res where
  status : Nat
  headers : List (String × String)
  body : Option String
deriving DecidableEq

/-- What invoking a named property of the `handlers` object can do, as
observed by `JsWorker::run`. -/
inductive HandlerOutcome where
  | returns (res : Res)
  | throws (msg : String)
  | badShape
deriving DecidableEq

/-- `JsWorker::run(name, req)`: look the handler up on the global
`handlers` object, call it, await the promise and read the `Res` back;
every failure surfaces as `Err`. -/
def JsWorker.run (handlers : List (String × HandlerOutcome)) (name : String) :
    Except String Res :=
  match assocLookup handlers name with
  | none => Except.error ("handler not found: " ++ name)
  | some (HandlerOutcome.returns r) => Except.ok r
  | some (HandlerOutcome.throws m) => Except.error ("handler threw: " ++ m)
  | some HandlerOutcome.badShape => Except.error "bad response shape"

/-- How a worker thread ends. -/
inductive ThreadOutcome where
  | cleanExit
  | panicked
deriving DecidableEq

/-- The worker thread's receive loop: the message list is the sequence of
requests received before the channel closes; `worker.run(..).unwrap()`
panics the thread on the first `Err`. -/
def workerLoop (handlers : List (String × HandlerOutcome)) :
    List (String × Req) → ThreadOutcome
  | [] => ThreadOutcome.cleanExit
  | (name, _) :: rest =>
      match JsWorker.run handlers name with
      | Except.ok _ => workerLoop handlers rest
      | Except.error _ => ThreadOutcome.panicked

/-- C4 counterexample: a worker thread does not survive every processing
outcome.  With a module exporting only `hello`, receiving the tuple
`("missing", req)` makes `worker.run(..).unwrap()` panic and the thread
terminates even though its sender was never dropped. -/
theorem C4_counterexample :
    workerLoop [("hello", HandlerOutcome.returns { status := 200, headers := [], body := none })]
        [("missing", { method := "GET", url := "/", query := [], params := [],
                       headers := [], body := none })] =
      ThreadOutcome.panicked := by
  rfl

/-- C4 amended: a worker thread exits cleanly exactly when every received
tuple processes successfully and the channel then closes; any failing
outcome of processing a received tuple (handler missing, script exception,
bad response shape) panics the thread via `.unwrap()`.  In particular on
an empty message sequence (channel closed at once) the exit is clean. -/
theorem C4_thread_lifetime (handlers : List (String × HandlerOutcome))
    (msgs : List (String × Req)) :
    (workerLoop handlers [] = ThreadOutcome.cleanExit) ∧
    (workerLoop handlers msgs = ThreadOutcome.cleanExit ↔
      ∀ p ∈ msgs, ∃ r, JsWorker.run handlers p.1 = Except.ok r) := by
  refine ⟨rfl, ?_⟩
  induction msgs with
  | nil => simp [workerLoop]
  | cons q rest ih =>
    obtain ⟨name, req⟩ := q
    cases hrun : JsWorker.run handlers name with
    | ok r =>
      simp only [workerLoop, hrun, ih, List.mem_cons]
      constructor
      · intro hall p hp
        rcases hp with hp | hp
        · subst hp
          exact ⟨r, hrun⟩
        · exact hall p hp
      · intro hall p hp
        exact hall p (Or.inr hp)
    | error e =>
      simp only [workerLoop, hrun]
      constructor
      · intro hcontra
        cases hcontra
      · intro hall
        rcases hall (name, req) (List.mem_cons_self _ _) with ⟨r, hr⟩
        rw [hrun] at hr
        cases hr

theorem C4_thread_lifetime_witness :
    workerLoop
        [("hello", HandlerOutcome.returns { status := 200, headers := [], body := none })]
        [] = ThreadOutcome.cleanExit :=
  (C4_thread_lifetime
      [("hello", HandlerOutcome.returns { status := 200, headers := [], body := none })]
      []).1

/-! ## C5: the reload watcher (src/dino/src/cli/run.rs, `async_watch`)

The watch loop: on a debounced `Ok(events)` batch it scans for the first
path ending in `config.yml` or with extension `ts`/`js`; if one is found
it logs `File changed: <path>` and calls `get_code_and_config()?` — the
`?` propagates a build/config failure out of `async_watch`, ending the
loop; on success it swaps the router, logs, swaps the pool, logs.  An
`Err` watch event is logged and the loop continues.  `async_watch` itself
runs in a `tokio::spawn`ed task, so `start_server` is unaffected by its
return. -/

/-- The published state the watcher maintains, plus the log. -/
structure WatchState where
  routerCode : String
  routerRoutes : String
  poolCode : String
  log : List String
deriving DecidableEq

/-- A debounced watch result: a batch of changed paths, or a watch error. -/
inductive WatchEvent where
  | events (paths : List String)
  | errEvent (msg : String)
deriving DecidableEq

/-- Does a changed path trigger a reload?
`path.ends_with("config.yml") || ext == "ts" || ext == "js"`. -/
def triggersReload (path : String) : Bool :=
  lastComponent path == "config.yml" || extOf path == some "ts" || extOf path == some "js"

/-- How `async_watch` ends: the event stream ran dry, or the `?` on a
failed rebuild returned an error from the task. -/
inductive WatchResult where
  | finished (s : WatchState)
  | errored (s : WatchState)
deriving DecidableEq

/-- The `async_watch` event loop.  `build k` is the outcome of the `k`-th
call to `get_code_and_config()` (the bundle + config load at that
moment). -/
def asyncWatchLoop (build : Nat → Except String (String × String)) :
    Nat → WatchState → List WatchEvent → WatchResult
  | _, s, [] => WatchResult.finished s
  | k, s, WatchEvent.errEvent msg :: rest =>
      asyncWatchLoop build k { s with log := s.log ++ ["Error: " ++ msg] } rest
  | k, s, WatchEvent.events paths :: rest =>
      match paths.find? triggersReload with
      | none => asyncWatchLoop build k s rest
      | some path =>
          let s1 : WatchState := { s with log := s.log ++ ["File changed: " ++ path] }
          match build k with
          | Except.error _ => WatchResult.errored s1
          | Except.ok (code, config) =>
              asyncWatchLoop build (k + 1)
                { routerCode := code, routerRoutes := config, poolCode := code,
                  log := s1.log ++ ["Router swapped", "Worker Pool swapped"] }
                rest

/-- `run`'s execute: `tokio::spawn(async_watch(..))` then
`start_server(..)`; the first component is the HTTP server's liveness,
which does not depend on how the spawned watcher task ends. -/
def runSystem (build : Nat → Except String (String × String)) (s : WatchState)
    (events : List WatchEvent) : Bool × WatchResult :=
  (true, asyncWatchLoop build 0 s events)

/-- C5 counterexample: a failed rebuild leaves the published router and
pool in place, but the failure is NOT logged and the watcher does NOT
continue: the `?` ends the watch loop, so a second change event — whose
rebuild would have succeeded with code `v2` — is never processed and the
pool stays at `v1`. -/
theorem C5_counterexample :
    runSystem
        (fun k => if k = 0 then Except.error "bundle failed" else Except.ok ("v2", "r2"))
        { routerCode := "v1", routerRoutes := "r1", poolCode := "v1", log := [] }
        [WatchEvent.events ["main.ts"], WatchEvent.events ["main.ts"]] =
      (true, WatchResult.errored
        { routerCode := "v1", routerRoutes := "r1", poolCode := "v1",
          log := ["File changed: main.ts"] }) := by
  rfl

/-- C5 amended: when the rebuild triggered by a file change fails, the
HTTP server keeps running and the published router and worker pool remain
unchanged, but the failure is not logged (only the `File changed` line is)
and the watcher task returns, reacting to no further file changes. -/
theorem C5_reload_failure (build : Nat → Except String (String × String))
    (k : Nat) (s : WatchState) (path : String) (paths : List String)
    (rest events : List WatchEvent) (e : String)
    (hfind : paths.find? triggersReload = some path)
    (hbuild : build k = Except.error e) :
    asyncWatchLoop build k s (WatchEvent.events paths :: rest) =
      WatchResult.errored { s with log := s.log ++ ["File changed: " ++ path] } ∧
    (runSystem build s events).1 = true := by
  constructor
  · simp only [asyncWatchLoop, hfind, hbuild]
  · rfl

theorem C5_reload_failure_witness :
    asyncWatchLoop (fun _ => Except.error "bundle failed") 0
        { routerCode := "v1", routerRoutes := "r1", poolCode := "v1", log := [] }
        [WatchEvent.events ["main.ts"]] =
      WatchResult.errored
        { routerCode := "v1", routerRoutes := "r1", poolCode := "v1",
          log := ["File changed: main.ts"] } :=
  (C5_reload_failure (fun _ => Except.error "bundle failed") 0
      { routerCode := "v1", routerRoutes := "r1", poolCode := "v1", log := [] }
      "main.ts" ["main.ts"] [] [] "bundle failed" (by decide) rfl).1

/-! ## C6/C7: the bundler's filesystem loader and `run_bundle`
(src/bundler/src/bundle/modules.rs, src/bundler/src/bundle/mod.rs)

The filesystem is a finite map from path to file contents.  The
TypeScript transpiler is an external tool (src only declares
`TypeScript::compile`), so loaders are parameterised by it. -/

/-- A snapshot of the filesystem: path to contents, files only. -/
abbrev FileSys := List (String × String)

/-- Rust `Path::is_file`. -/
def FileSys.isFile (fs : FileSys) (p : String) : Bool := (assocLookup fs p).isSome

/-- `fs::read_to_string`. -/
def FileSys.read (fs : FileSys) (p : String) : Except String String :=
  match assocLookup fs p with
  | some c => Except.ok c
  | none => Except.error ("io error: " ++ p)

/-- The type of `TypeScript::compile(filename, source)`. -/
abbrev TsCompiler := Option String → String → Except String String

/-- Modelled from the spec: the external TypeScript transpiler
("TypeScript Transpiler — strip types, produce ES output (delegated to an
external tool)"; src/bundler/src/bundle/transpilers.rs is not among the
sources).  This stand-in strips the one type annotation occurring in the
concrete inputs below; all that matters is that its output differs from
its TypeScript input. -/
def tsCompileModel : TsCompiler :=
  fun _ src => Except.ok (replaceFirst src ": number" "")

namespace FsModuleLoader

/-- The extension probing order. -/
def EXTENSIONS : List String := ["js", "jsx", "ts", "tsx", "json", "wasm"]

/-- `FsModuleLoader::is_json_import`. -/
def is_json_import (p : String) : Bool := extOf p == some "json"

/-- `FsModuleLoader::wrap_json`. -/
def wrap_json (source : String) : String :=
  "export default JSON.parse(`" ++ source ++ "`);"

/-- `FsModuleLoader::load_source`: read the file, wrapping JSON files. -/
def load_source (fs : FileSys) (p : String) : Except String String :=
  match fs.read p with
  | Except.error e => Except.error e
  | Except.ok source =>
      Except.ok (if is_json_import p then wrap_json source else source)

/-- `FsModuleLoader::load_as_file`: the path itself, else — when it has no
extension — the first of `EXTENSIONS` that makes it a file. -/
def load_as_file (fs : FileSys) (p : String) : Except String String :=
  if fs.isFile p then load_source fs p
  else if (extOf p).isNone then
    match EXTENSIONS.find? (fun ext => fs.isFile (withExtension p ext)) with
    | some ext => load_source fs (withExtension p ext)
    | none => Except.error ("Module not found \"" ++ p ++ "\"")
  else Except.error ("Module not found \"" ++ p ++ "\"")

/-- `FsModuleLoader::load_as_directory`: `<path>/index.<ext>` for the
first matching extension. -/
def load_as_directory (fs : FileSys) (p : String) : Except String String :=
  match EXTENSIONS.find? (fun ext => fs.isFile (p ++ "/index." ++ ext)) with
  | some ext => load_source fs (p ++ "/index." ++ ext)
  | none => Except.error ("Module not found \"" ++ p ++ "\"")

/-- The `path` computed in `FsModuleLoader::load`: the specifier, with a
missing extension defaulted to `js`. -/
def finalPath (specifier : String) : String :=
  match extOf specifier with
  | some _ => specifier
  | none => withExtension specifier "js"

/-- `FsModuleLoader::load`: try as file then as directory; default the
specifier's extension to `js`; transpile when THAT path's extension is
`ts` (note: not when the file actually read is a `.ts` file). -/
def load (fs : FileSys) (tsC : TsCompiler) (specifier : String) :
    Except String String :=
  let maybe_source :=
    match load_as_file fs specifier with
    | Except.ok s => Except.ok s
    | Except.error _ => load_as_directory fs specifier
  let path := finalPath specifier
  match maybe_source with
  | Except.error _ => Except.error ("Module not found \"" ++ path ++ "\"")
  | Except.ok source =>
      if extOf path == some "ts" then
        match tsC (some path) source with
        | Except.ok out => Except.ok out
        | Except.error e => Except.error ("TypeScript compile error: " ++ e)
      else Except.ok source

end FsModuleLoader

/-- `load_import` for local (non-URL, non-drive-letter) specifiers such as
the bundler's `main.ts` entry: the filesystem loader.  (URL specifiers
take the URL loader; the claims below concern filesystem entries.) -/
def load_import (fs : FileSys) (tsC : TsCompiler) (specifier : String) :
    Except String String :=
  FsModuleLoader.load fs tsC specifier

deriving instance DecidableEq for Except

/-- How the swc `Load` impl in mod.rs ends for one module. -/
inductive LoadResult where
  | ok (source : String)
  | failed (e : String)
  | exited (code : Nat)
deriving DecidableEq

/-- `Loader::load` in mod.rs: `load_import` the source, then parse it;
`Err` from `load_import` propagates, while a parse failure runs
`std::process::exit(1)`.  `parsesOk` is the external swc parser's
verdict. -/
def loaderLoad (fs : FileSys) (tsC : TsCompiler) (parsesOk : String → Bool)
    (specifier : String) : LoadResult :=
  match load_import fs tsC specifier with
  | Except.error e => LoadResult.failed e
  | Except.ok source =>
      if parsesOk source then LoadResult.ok source else LoadResult.exited 1

/-- How a `run_bundle` call ends: with a returned `Result`, or by
terminating the process. -/
inductive BundleOutcome where
  | returned (r : Except String String)
  | exitedProcess (code : Nat)
deriving DecidableEq

/-- The banner prepended when not minifying. -/
def duneBanner : String :=
  "// Dune\n// It's not recommended to edit this code manually since it's generated by `dune bundle`\n\n"

/-- `run_bundle(entry, options)` for a single-module entry: load it through
the `Loader`; a load error is returned (via `Error::msg`), a parse failure
exits the process from inside the loader; on success the bundle is emitted
with `emitter.emit_module(&bundle.module)?` — `emit` is the external swc
emitter, whose error the `?` returns — and the banner is prepended unless
minifying. -/
def run_bundle (fs : FileSys) (tsC : TsCompiler) (parsesOk : String → Bool)
    (emit : String → Except String String) (entry : String) (minify : Bool) :
    BundleOutcome :=
  match loaderLoad fs tsC parsesOk entry with
  | LoadResult.failed e => BundleOutcome.returned (Except.error e)
  | LoadResult.exited c => BundleOutcome.exitedProcess c
  | LoadResult.ok source =>
      match emit source with
      | Except.error e => BundleOutcome.returned (Except.error e)
      | Except.ok out =>
          BundleOutcome.returned (Except.ok (if minify then out else duneBanner ++ out))

/-- C7 counterexample: specifier `foo` with only `foo.ts` on disk.  The
file actually read (found by extension probing) is a TypeScript file, yet
the loader returns the raw source, not the transpiler's output: the
transpile decision looks at the defaulted specifier `foo.js`, not at the
file that was read. -/
theorem C7_counterexample :
    FsModuleLoader.load [("foo.ts", "let x: number = 1")] tsCompileModel "foo" =
      Except.ok "let x: number = 1" ∧
    tsCompileModel (some "foo.ts") "let x: number = 1" ≠
      Except.ok "let x: number = 1" := by
  constructor
  · rfl
  · decide

/-- C7 amended: the transpile decision depends only on the specifier's
extension, with a missing one defaulted to `js` — sources are transpiled
iff that (defaulted) extension is `ts`, regardless of which file was
actually read: (1) a directly named `.ts` specifier is transpiled; (2) a
`.ts` file reached by extension probing of an extension-less specifier is
returned raw; (3) an `index.ts` found inside a directory named by an
extension-less specifier is returned raw; (4) conversely, an index file —
even `index.js` — found inside a directory whose own name ends in `.ts`
IS transpiled; (5) a specifier without extension gets final extension
`js`, which is also the name in the not-found error. -/
theorem C7_fs_loader_transpile :
    (∀ (fs : FileSys) (tsC : TsCompiler) (spec src out : String),
        extOf spec = some "ts" →
        assocLookup fs spec = some src →
        tsC (some spec) src = Except.ok out →
        FsModuleLoader.load fs tsC spec = Except.ok out) ∧
    (∀ (fs : FileSys) (tsC : TsCompiler) (spec src : String),
        extOf spec = none →
        fs.isFile spec = false →
        fs.isFile (withExtension spec "js") = false →
        fs.isFile (withExtension spec "jsx") = false →
        assocLookup fs (withExtension spec "ts") = some src →
        extOf (withExtension spec "ts") = some "ts" →
        extOf (withExtension spec "js") = some "js" →
        FsModuleLoader.load fs tsC spec = Except.ok src) ∧
    (∀ (fs : FileSys) (tsC : TsCompiler) (spec src e1 : String),
        extOf spec = none →
        FsModuleLoader.load_as_file fs spec = Except.error e1 →
        fs.isFile (spec ++ "/index." ++ "js") = false →
        fs.isFile (spec ++ "/index." ++ "jsx") = false →
        assocLookup fs (spec ++ "/index." ++ "ts") = some src →
        extOf (spec ++ "/index." ++ "ts") = some "ts" →
        extOf (withExtension spec "js") = some "js" →
        FsModuleLoader.load fs tsC spec = Except.ok src) ∧
    (∀ (fs : FileSys) (tsC : TsCompiler) (spec src out e1 : String),
        extOf spec = some "ts" →
        FsModuleLoader.load_as_file fs spec = Except.error e1 →
        assocLookup fs (spec ++ "/index." ++ "js") = some src →
        extOf (spec ++ "/index." ++ "js") = some "js" →
        tsC (some spec) src = Except.ok out →
        FsModuleLoader.load fs tsC spec = Except.ok out) ∧
    (∀ (fs : FileSys) (tsC : TsCompiler) (spec e1 e2 : String),
        extOf spec = none →
        FsModuleLoader.load_as_file fs spec = Except.error e1 →
        FsModuleLoader.load_as_directory fs spec = Except.error e2 →
        FsModuleLoader.finalPath spec = withExtension spec "js" ∧
        FsModuleLoader.load fs tsC spec =
          Except.error ("Module not found \"" ++ withExtension spec "js" ++ "\"")) := by
  refine ⟨?_, ?_, ?_, ?_, ?_⟩
  · intro fs tsC spec src out hext hlookup htsc
    have hisfile : fs.isFile spec = true := by
      simp [FileSys.isFile, hlookup]
    have hjson : FsModuleLoader.is_json_import spec = false := by
      simp [FsModuleLoader.is_json_import, hext]
    simp [FsModuleLoader.load, FsModuleLoader.load_as_file, hisfile,
      FsModuleLoader.load_source, FileSys.read, hlookup, hjson,
      FsModuleLoader.finalPath, hext, htsc]
  · intro fs tsC spec src hext hf hjs hjsx hlookup hts hjsext
    have hisfilets : fs.isFile (withExtension spec "ts") = true := by
      simp [FileSys.isFile, hlookup]
    have hfind : FsModuleLoader.EXTENSIONS.find?
        (fun ext => fs.isFile (withExtension spec ext)) = some "ts" := by
      simp [FsModuleLoader.EXTENSIONS, List.find?, hjs, hjsx, hisfilets]
    have hjson : FsModuleLoader.is_json_import (withExtension spec "ts") = false := by
      simp [FsModuleLoader.is_json_import, hts]
    simp [FsModuleLoader.load, FsModuleLoader.load_as_file, hf, hext, hfind,
      FsModuleLoader.load_source, FileSys.read, hlookup, hjson,
      FsModuleLoader.finalPath, hjsext]
  · intro fs tsC spec src e1 hext hfile hjs hjsx hlookup hts hjsext
    have hisfilets : fs.isFile (spec ++ "/index." ++ "ts") = true := by
      simp [FileSys.isFile, hlookup]
    have hfind : FsModuleLoader.EXTENSIONS.find?
        (fun ext => fs.isFile (spec ++ "/index." ++ ext)) = some "ts" := by
      simp [FsModuleLoader.EXTENSIONS, List.find?, hjs, hjsx, hisfilets]
    have hjson : FsModuleLoader.is_json_import (spec ++ "/index." ++ "ts") = false := by
      simp [FsModuleLoader.is_json_import, hts]
    simp [FsModuleLoader.load, hfile, FsModuleLoader.load_as_directory, hfind,
      FsModuleLoader.load_source, FileSys.read, hlookup, hjson,
      FsModuleLoader.finalPath, hext, hjsext]
  · intro fs tsC spec src out e1 hext hfile hlookup hjsext htsc
    have hisfilejs : fs.isFile (spec ++ "/index." ++ "js") = true := by
      simp [FileSys.isFile, hlookup]
    have hfind : FsModuleLoader.EXTENSIONS.find?
        (fun ext => fs.isFile (spec ++ "/index." ++ ext)) = some "js" := by
      simp [FsModuleLoader.EXTENSIONS, List.find?, hisfilejs]
    have hjson : FsModuleLoader.is_json_import (spec ++ "/index." ++ "js") = false := by
      simp [FsModuleLoader.is_json_import, hjsext]
    simp [FsModuleLoader.load, hfile, FsModuleLoader.load_as_directory, hfind,
      FsModuleLoader.load_source, FileSys.read, hlookup, hjson,
      FsModuleLoader.finalPath, hext, htsc]
  · intro fs tsC spec e1 e2 hext hfile hdir
    have hfp : FsModuleLoader.finalPath spec = withExtension spec "js" := by
      simp [FsModuleLoader.finalPath, hext]
    refine ⟨hfp, ?_⟩
    simp [FsModuleLoader.load, hfile, hdir, hfp]

theorem C7_fs_loader_transpile_witness :
    FsModuleLoader.load [("a.ts", "let x: number = 1")] tsCompileModel "a.ts" =
      Except.ok "let x = 1" ∧
    FsModuleLoader.load [("b.ts", "let y: number = 2")] tsCompileModel "b" =
      Except.ok "let y: number = 2" ∧
    FsModuleLoader.load [("pkg/index.ts", "let z: number = 3")] tsCompileModel "pkg" =
      Except.ok "let z: number = 3" ∧
    FsModuleLoader.load [("lib.ts/index.js", "let w: number = 4")] tsCompileModel
        "lib.ts" = Except.ok "let w = 4" ∧
    FsModuleLoader.load ([] : FileSys) tsCompileModel "missing" =
      Except.error "Module not found \"missing.js\"" := by
  refine ⟨?_, ?_, ?_, ?_, ?_⟩
  · exact C7_fs_loader_transpile.1 [("a.ts", "let x: number = 1")] tsCompileModel
      "a.ts" "let x: number = 1" "let x = 1" (by decide) rfl (by decide)
  · exact C7_fs_loader_transpile.2.1 [("b.ts", "let y: number = 2")] tsCompileModel
      "b" "let y: number = 2" (by decide) (by decide) (by decide) (by decide) rfl
      (by decide) (by decide)
  · exact C7_fs_loader_transpile.2.2.1 [("pkg/index.ts", "let z: number = 3")]
      tsCompileModel "pkg" "let z: number = 3" "Module not found \"pkg\""
      (by decide) (by decide) (by decide) (by decide) rfl (by decide) (by decide)
  · exact C7_fs_loader_transpile.2.2.2.1 [("lib.ts/index.js", "let w: number = 4")]
      tsCompileModel "lib.ts" "let w: number = 4" "let w = 4"
      "Module not found \"lib.ts\"" (by decide) (by decide) rfl (by decide) (by decide)
  · exact (C7_fs_loader_transpile.2.2.2.2 ([] : FileSys) tsCompileModel "missing"
      "Module not found \"missing\"" "Module not found \"missing\""
      (by decide) (by decide) (by decide)).2

/-- C6 counterexample: an entry that loads but does not parse does not
make `run_bundle` return an error — `Loader::load` calls
`std::process::exit(1)`, terminating the process. -/
theorem C6_counterexample :
    run_bundle [("main.js", "this is not javascript ((")] tsCompileModel
        (fun _ => false) (fun s => Except.ok s) "main.js" false =
      BundleOutcome.exitedProcess 1 := by
  rfl

/-- C6 amended: a LOAD failure makes `run_bundle` return an error naming
the offending specifier and its cause (the loader's `Module not found`
message names the defaulted specifier), and an EMIT failure makes it
return the emitter's error — but a PARSE failure terminates the process
with exit code 1 instead of returning. -/
theorem C6_bundle_failure_mode :
    (∀ (fs : FileSys) (tsC : TsCompiler) (parsesOk : String → Bool)
        (emit : String → Except String String) (entry e : String) (minify : Bool),
        load_import fs tsC entry = Except.error e →
        run_bundle fs tsC parsesOk emit entry minify =
          BundleOutcome.returned (Except.error e)) ∧
    (∀ (fs : FileSys) (tsC : TsCompiler) (parsesOk : String → Bool)
        (emit : String → Except String String) (entry src e : String) (minify : Bool),
        load_import fs tsC entry = Except.ok src →
        parsesOk src = true →
        emit src = Except.error e →
        run_bundle fs tsC parsesOk emit entry minify =
          BundleOutcome.returned (Except.error e)) ∧
    (∀ (fs : FileSys) (tsC : TsCompiler) (parsesOk : String → Bool)
        (emit : String → Except String String) (entry src : String) (minify : Bool),
        load_import fs tsC entry = Except.ok src →
        parsesOk src = false →
        run_bundle fs tsC parsesOk emit entry minify = BundleOutcome.exitedProcess 1) ∧
    (∀ (fs : FileSys) (tsC : TsCompiler) (spec e1 e2 : String),
        FsModuleLoader.load_as_file fs spec = Except.error e1 →
        FsModuleLoader.load_as_directory fs spec = Except.error e2 →
        load_import fs tsC spec =
          Except.error ("Module not found \"" ++ FsModuleLoader.finalPath spec ++ "\"")) := by
  refine ⟨?_, ?_, ?_, ?_⟩
  · intro fs tsC parsesOk emit entry e minify hload
    simp [run_bundle, loaderLoad, hload]
  · intro fs tsC parsesOk emit entry src e minify hload hparse hemit
    simp [run_bundle, loaderLoad, hload, hparse, hemit]
  · intro fs tsC parsesOk emit entry src minify hload hparse
    simp [run_bundle, loaderLoad, hload, hparse]
  · intro fs tsC spec e1 e2 hfile hdir
    simp [load_import, FsModuleLoader.load, hfile, hdir]

theorem C6_bundle_failure_mode_witness :
    run_bundle ([] : FileSys) tsCompileModel (fun _ => true) (fun s => Except.ok s)
        "x" false =
      BundleOutcome.returned (Except.error "Module not found \"x.js\"") ∧
    run_bundle [("main.js", "let a = 1")] tsCompileModel (fun _ => true)
        (fun _ => Except.error "emit failed") "main.js" false =
      BundleOutcome.returned (Except.error "emit failed") ∧
    run_bundle [("main.js", "((")] tsCompileModel (fun _ => false)
        (fun s => Except.ok s) "main.js" true =
      BundleOutcome.exitedProcess 1 := by
  refine ⟨?_, ?_, ?_⟩
  · exact C6_bundle_failure_mode.1 ([] : FileSys) tsCompileModel (fun _ => true)
      (fun s => Except.ok s) "x" "Module not found \"x.js\"" false (by decide)
  · exact C6_bundle_failure_mode.2.1 [("main.js", "let a = 1")] tsCompileModel
      (fun _ => true) (fun _ => Except.error "emit failed") "main.js" "let a = 1"
      "emit failed" false (by decide) rfl rfl
  · exact C6_bundle_failure_mode.2.2.1 [("main.js", "((")] tsCompileModel
      (fun _ => false) (fun s => Except.ok s) "main.js" "((" true (by decide) rfl

/-! ## C8: the import map (src/bundler/src/bundle/modules.rs, `ImportMap`)

`parse_from_json` materialises the `imports` object's entries and sorts
them with `map.sort_by(|a, b| b.0.cmp(&a.0))` — descending lexicographic
key order (under which every key precedes its proper prefixes).  `lookup`
takes the FIRST entry whose key is a prefix of the specifier, resolves a
`./`-target against the cwd, and applies the extension-less-import check
before substituting. -/

/-- Lexicographic `≤` on character lists: Rust's `str::cmp` order. -/
def lexLe : List Char → List Char → Bool
  | [], _ => true
  | _ :: _, [] => false
  | a :: as, b :: bs =>
      if a < b then true else if b < a then false else lexLe as bs

/-- Lexicographic `≤` on strings. -/
def strLe (a b : String) : Bool := lexLe a.data b.data

theorem lexLe_refl : ∀ l : List Char, lexLe l l = true
  | [] => rfl
  | a :: as => by
      simp only [lexLe, lt_irrefl a, if_false]
      exact lexLe_refl as

theorem lexLe_total : ∀ a b : List Char, lexLe a b = true ∨ lexLe b a = true
  | [], _ => Or.inl rfl
  | _ :: _, [] => Or.inr rfl
  | a :: as, b :: bs => by
      rcases lt_trichotomy a b with h | h | h
      · left
        simp [lexLe, h]
      · subst h
        simp only [lexLe, lt_irrefl a, if_false]
        exact lexLe_total as bs
      · right
        simp [lexLe, h]

theorem lexLe_trans : ∀ a b c : List Char,
    lexLe a b = true → lexLe b c = true → lexLe a c = true
  | [], _, _, _, _ => rfl
  | _ :: _, [], _, hab, _ => by cases hab
  | _ :: _, _ :: _, [], _, hbc => by cases hbc
  | a :: as, b :: bs, c :: cs, hab, hbc => by
      simp only [lexLe] at hab hbc ⊢
      rcases lt_trichotomy a b with h1 | h1 | h1
      · rcases lt_trichotomy b c with h2 | h2 | h2
        · simp [lt_trans h1 h2]
        · subst h2
          simp [h1]
        · rw [if_neg (lt_asymm h2), if_pos h2] at hbc
          cases hbc
      · subst h1
        rcases lt_trichotomy a c with h2 | h2 | h2
        · simp [h2]
        · subst h2
          simp only [lt_irrefl a, if_false] at hab hbc ⊢
          exact lexLe_trans as bs cs hab hbc
        · simp only [lt_irrefl a, if_false] at hab
          rw [if_neg (lt_asymm h2), if_pos h2] at hbc
          cases hbc
      · rw [if_neg (lt_asymm h1), if_pos h1] at hab
        cases hab

theorem lexLe_of_prefix : ∀ l1 l2 : List Char, l1 <+: l2 → lexLe l1 l2 = true
  | [], _, _ => rfl
  | a :: as, l2, h => by
      obtain ⟨t, ht⟩ := h
      subst ht
      simp only [List.cons_append, lexLe, lt_irrefl a, if_false]
      exact lexLe_of_prefix as (as ++ t) ⟨t, rfl⟩

theorem lexLe_false_of_proper_prefix :
    ∀ l1 l2 : List Char, l1 <+: l2 → l1 ≠ l2 → lexLe l2 l1 = false
  | [], l2, _, hne => by
      cases l2 with
      | nil => exact absurd rfl hne
      | cons b bs => rfl
  | a :: as, l2, h, hne => by
      obtain ⟨t, ht⟩ := h
      subst ht
      simp only [List.cons_append, lexLe, lt_irrefl a, if_false]
      exact lexLe_false_of_proper_prefix as (as ++ t) ⟨t, rfl⟩
        (fun hc => hne (by rw [List.cons_append, ← hc]))

/-- The comparator `|a, b| b.0.cmp(&a.0)`: entry `a` may precede entry `b`
when `b`'s key is lexicographically at most `a`'s (descending key order). -/
def importEntryBefore (a b : String × String) : Prop := strLe b.1 a.1 = true

instance : DecidableRel importEntryBefore := fun a b => by
  unfold importEntryBefore
  infer_instance

instance : IsTotal (String × String) importEntryBefore :=
  ⟨fun a b => by
    unfold importEntryBefore strLe
    exact lexLe_total b.1.data a.1.data⟩

instance : IsTrans (String × String) importEntryBefore :=
  ⟨fun a b c hab hbc => lexLe_trans c.1.data b.1.data a.1.data hbc hab⟩

/-- The `ImportMap` struct: entries in descending key order. -/
structure ImportMap where
  map : List (String × String)
deriving DecidableEq

/-- `ImportMap::parse_from_json` after the (external) serde parse of the
`imports` object: materialise the entries and sort with
`map.sort_by(|a, b| b.0.cmp(&a.0))` (a stable sort; modelled by insertion
sort with the same comparator). -/
def ImportMap.parseFromEntries (entries : List (String × String)) : ImportMap :=
  ⟨List.insertionSort importEntryBefore entries⟩

/-- `ImportMap::lookup(specifier)`: first entry whose key is a prefix of
the specifier; a target starting `./` has its leading `.` replaced by the
cwd; the extension-less-import check may then reject the match. -/
def ImportMap.lookup (cwd : String) (im : ImportMap) (specifier : String) : Option String :=
  match im.map.find? (fun kv => strStartsWith specifier kv.1) with
  | none => none
  | some (base, target) =>
      let target := if strStartsWith target "./" then replaceFirst target "." cwd else target
      match extOf specifier with
      | some ext =>
          if specifier = withExtension base ext then none
          else some (replaceFirst specifier base target)
      | none => some (replaceFirst specifier base target)

theorem string_data_ne_of_ne {k1 k2 : String} (hne : k1 ≠ k2) : k1.data ≠ k2.data := by
  intro h
  apply hne
  cases k1
  cases k2
  simp_all

/-- Sorting the two entries `k1 ⊊ k2` yields `k2`'s entry first. -/
theorem parse_two_entries (k1 t1 k2 t2 : String)
    (hpre : strStartsWith k2 k1 = true) (hne : k1 ≠ k2) :
    (ImportMap.parseFromEntries [(k1, t1), (k2, t2)]).map = [(k2, t2), (k1, t1)] ∧
    (ImportMap.parseFromEntries [(k2, t2), (k1, t1)]).map = [(k2, t2), (k1, t1)] := by
  have hprefix : k1.data <+: k2.data := by
    have := hpre
    simp only [strStartsWith] at this
    exact (List.isPrefixOf_iff_prefix).mp this
  have hdne : k1.data ≠ k2.data := string_data_ne_of_ne hne
  have hstrict : lexLe k2.data k1.data = false :=
    lexLe_false_of_proper_prefix k1.data k2.data hprefix hdne
  have hle : lexLe k1.data k2.data = true := lexLe_of_prefix k1.data k2.data hprefix
  constructor
  · simp [ImportMap.parseFromEntries, List.insertionSort, List.orderedInsert,
      importEntryBefore, strLe, hstrict]
  · simp [ImportMap.parseFromEntries, List.insertionSort, List.orderedInsert,
      importEntryBefore, strLe, hle]

/-- C8 counterexample: keys `a` ⊊ `a.t`, specifier `a.ts` (which starts
with `a.t`).  The claim says the specifier is rewritten using `a.t`'s
target; the code's extension-less-import check makes `lookup` return no
match instead (the specifier equals the matched key with its extension
replaced by the specifier's). -/
theorem C8_counterexample :
    ImportMap.lookup "/cwd"
        (ImportMap.parseFromEntries [("a", "TA"), ("a.t", "TB")]) "a.ts" = none := by
  decide

/-- C8 amended: the parsed import map orders every key before its proper
prefixes (descending lexicographic order, which the code's comment
explains exists to make longer prefixes win), and for a map of the two
keys `k1 ⊊ k2` a specifier starting with `k2` is matched against `k2`'s
entry — never `k1`'s: it is rewritten with `k2`'s target, except that a
specifier with an extension that equals `k2` with that extension spliced
on is rejected (`lookup` returns no match). -/
theorem C8_longest_prefix_wins :
    (∀ (entries : List (String × String)) (k1 t1 k2 t2 : String) (i j : Nat)
        (hi : i < (ImportMap.parseFromEntries entries).map.length)
        (hj : j < (ImportMap.parseFromEntries entries).map.length),
        strStartsWith k2 k1 = true → k1 ≠ k2 →
        (ImportMap.parseFromEntries entries).map[i] = (k1, t1) →
        (ImportMap.parseFromEntries entries).map[j] = (k2, t2) →
        j < i) ∧
    (∀ (cwd k1 t1 k2 t2 spec : String),
        strStartsWith k2 k1 = true → k1 ≠ k2 →
        strStartsWith spec k2 = true →
        (extOf spec = none →
            ImportMap.lookup cwd (ImportMap.parseFromEntries [(k1, t1), (k2, t2)]) spec =
              some (replaceFirst spec k2
                (if strStartsWith t2 "./" then replaceFirst t2 "." cwd else t2))) ∧
        (∀ ext, extOf spec = some ext → spec ≠ withExtension k2 ext →
            ImportMap.lookup cwd (ImportMap.parseFromEntries [(k1, t1), (k2, t2)]) spec =
              some (replaceFirst spec k2
                (if strStartsWith t2 "./" then replaceFirst t2 "." cwd else t2))) ∧
        (∀ ext, extOf spec = some ext → spec = withExtension k2 ext →
            ImportMap.lookup cwd (ImportMap.parseFromEntries [(k1, t1), (k2, t2)]) spec =
              none)) := by
  constructor
  · intro entries k1 t1 k2 t2 i j hi hj hpre hne hik1 hjk2
    have hsorted : List.Sorted importEntryBefore
        (List.insertionSort importEntryBefore entries) :=
      List.sorted_insertionSort importEntryBefore entries
    have hpair := List.pairwise_iff_getElem.mp hsorted
    have hprefix : k1.data <+: k2.data := by
      have := hpre
      simp only [strStartsWith] at this
      exact (List.isPrefixOf_iff_prefix).mp this
    have hdne : k1.data ≠ k2.data := string_data_ne_of_ne hne
    have hstrict : lexLe k2.data k1.data = false :=
      lexLe_false_of_proper_prefix k1.data k2.data hprefix hdne
    rcases Nat.lt_trichotomy i j with hij | hij | hij
    · exfalso
      have hr := hpair i j hi hj hij
      have hr2 : importEntryBefore ((ImportMap.parseFromEntries entries).map[i])
          ((ImportMap.parseFromEntries entries).map[j]) := hr
      rw [hik1, hjk2] at hr2
      simp only [importEntryBefore, strLe] at hr2
      rw [hstrict] at hr2
      cases hr2
    · exfalso
      subst hij
      rw [hik1] at hjk2
      have : k1 = k2 := congrArg Prod.fst hjk2
      exact hne this
    · exact hij
  · intro cwd k1 t1 k2 t2 spec hpre hne hs2
    have hmap := (parse_two_entries k1 t1 k2 t2 hpre hne).1
    refine ⟨?_, ?_, ?_⟩
    · intro hext
      simp [ImportMap.lookup, hmap, List.find?, hs2, hext]
    · intro ext hext hneq
      simp [ImportMap.lookup, hmap, List.find?, hs2, hext, hneq]
    · intro ext hext heq
      simp only [ImportMap.lookup, hmap, List.find?, hs2, hext]
      rw [if_pos heq]

theorem C8_longest_prefix_wins_witness :
    ImportMap.lookup "/cwd"
        (ImportMap.parseFromEntries [("react", "./a"), ("react/", "./vendor/react/")])
        "react/jsx-runtime" =
      some (replaceFirst "react/jsx-runtime" "react/"
        (if strStartsWith "./vendor/react/" "./" then replaceFirst "./vendor/react/" "." "/cwd"
         else "./vendor/react/")) :=
  ((C8_longest_prefix_wins.2 "/cwd" "react" "./a" "react/" "./vendor/react/"
      "react/jsx-runtime" (by decide) (by decide) (by decide)).1 (by decide))

/-! ## C9: the build cache (src/dino/src/utils.rs)

`calc_project_hash` BLAKE3-hashes, in `BTreeSet` (ascending path) order,
the contents of every `*.ts`, `*.fs`, `*.json` file under the project
directory and truncates the hex digest to 16 characters;  `build_project`
returns `build/<hash>.mjs` with a cache-hit flag when that file exists,
and otherwise bundles `main.ts`, writes the `.mjs` and copies
`config.yml` to `build/<hash>.yml`.  The BLAKE3 digest itself is an
external crate; it enters as the parameter `hashFn` applied to the
concatenated file contents. -/

/-- Modelled from the spec: the `BUILD_DIR` constant is defined at the
dino crate root, which is not among the sources; the spec places build
artifacts under `./build/`. -/
def BUILD_DIR : String := "build"

/-- Ascending path order (Rust `BTreeSet<PathBuf>` iteration order). -/
def pathAsc (a b : String) : Prop := strLe a b = true

instance : DecidableRel pathAsc := fun a b => by
  unfold pathAsc
  infer_instance

/-- `get_files_with_exts`: glob `dir/**/*.{ext}` for each extension and
collect into a `BTreeSet` (sorted, deduplicated). -/
def get_files_with_exts (fs : FileSys) (dir : String) (exts : List String) : List String :=
  (List.insertionSort pathAsc
    ((fs.map Prod.fst).filter
      (fun p => strStartsWith p (dir ++ "/") &&
        exts.any (fun e => strEndsWith p ("." ++ e))))).dedup

/-- `calc_hash_for_files`: feed each file's contents to the hasher in
sorted order, hex-print the digest and truncate to `len`. -/
def calc_hash_for_files (hashFn : String → String) (fs : FileSys) (dir : String)
    (exts : List String) (len : Nat) : String :=
  let files := get_files_with_exts fs dir exts
  strTake (hashFn (files.foldl (fun acc p => acc ++ (assocLookup fs p).getD "") "")) len

/-- `calc_project_hash`: extensions `ts`, `fs`, `json`; 16 characters. -/
def calc_project_hash (hashFn : String → String) (fs : FileSys) (dir : String) : String :=
  calc_hash_for_files hashFn fs dir ["ts", "fs", "json"] 16

/-- `build_project`: cache-hit on an existing `build/<hash>.mjs`,
otherwise bundle `main.ts` (`bundleRes` is that call's outcome), write
the bundle and copy `config.yml` alongside it. -/
def build_project (hashFn : String → String) (bundleRes : Except String String)
    (fs : FileSys) (dir : String) : Except String (FileSys × String × Bool) :=
  let hash := calc_project_hash hashFn fs dir
  let filename := BUILD_DIR ++ "/" ++ hash ++ ".mjs"
  let config := BUILD_DIR ++ "/" ++ hash ++ ".yml"
  if fs.isFile filename then Except.ok (fs, filename, true)
  else
    match bundleRes with
    | Except.error e => Except.error e
    | Except.ok content =>
        match assocLookup fs "config.yml" with
        | none => Except.error "io error: config.yml"
        | some cfg =>
            Except.ok (assocSet (assocSet fs filename content) config cfg, filename, false)

/-- C9: the hash is `hashFn` over the sorted `ts`/`fs`/`json` files'
contents truncated to 16 characters; `build_project` returns
`(build/<hash>.mjs, true)` without consulting the bundler exactly when
that file exists, and otherwise writes `build/<hash>.mjs` and copies
`config.yml` to `build/<hash>.yml`, returning `(filename, false)`. -/
theorem C9_build_caching (hashFn : String → String) (bundleRes : Except String String)
    (fs : FileSys) (dir content cfg : String)
    (hbundle : bundleRes = Except.ok content)
    (hcfg : assocLookup fs "config.yml" = some cfg) :
    BUILD_DIR = "build" ∧
    calc_project_hash hashFn fs dir =
      strTake (hashFn ((get_files_with_exts fs dir ["ts", "fs", "json"]).foldl
        (fun acc p => acc ++ (assocLookup fs p).getD "") "")) 16 ∧
    (fs.isFile (BUILD_DIR ++ "/" ++ calc_project_hash hashFn fs dir ++ ".mjs") = true →
        ∀ otherBundle : Except String String,
          build_project hashFn otherBundle fs dir =
            Except.ok (fs, BUILD_DIR ++ "/" ++ calc_project_hash hashFn fs dir ++ ".mjs", true)) ∧
    (fs.isFile (BUILD_DIR ++ "/" ++ calc_project_hash hashFn fs dir ++ ".mjs") = false →
        build_project hashFn bundleRes fs dir =
          Except.ok
            (assocSet
              (assocSet fs (BUILD_DIR ++ "/" ++ calc_project_hash hashFn fs dir ++ ".mjs") content)
              (BUILD_DIR ++ "/" ++ calc_project_hash hashFn fs dir ++ ".yml") cfg,
             BUILD_DIR ++ "/" ++ calc_project_hash hashFn fs dir ++ ".mjs", false)) := by
  refine ⟨rfl, rfl, ?_, ?_⟩
  · intro hhit otherBundle
    simp only [build_project]
    rw [if_pos hhit]
  · intro hmiss
    simp only [build_project]
    rw [if_neg (by rw [hmiss]; exact Bool.false_ne_true), hbundle, hcfg]

theorem C9_build_caching_witness :
    build_project (fun _ => "h") (Except.ok "out")
        [("config.yml", "cfg"), ("proj/main.ts", "src")] "proj" =
      Except.ok
        (assocSet
          (assocSet [("config.yml", "cfg"), ("proj/main.ts", "src")]
            (BUILD_DIR ++ "/" ++
              calc_project_hash (fun _ => "h") [("config.yml", "cfg"), ("proj/main.ts", "src")]
                "proj" ++ ".mjs") "out")
          (BUILD_DIR ++ "/" ++
            calc_project_hash (fun _ => "h") [("config.yml", "cfg"), ("proj/main.ts", "src")]
              "proj" ++ ".yml") "cfg",
         BUILD_DIR ++ "/" ++
           calc_project_hash (fun _ => "h") [("config.yml", "cfg"), ("proj/main.ts", "src")]
             "proj" ++ ".mjs", false) :=
  (C9_build_caching (fun _ => "h") (Except.ok "out")
      [("config.yml", "cfg"), ("proj/main.ts", "src")] "proj" "out" "cfg" rfl rfl).2.2.2
    (by decide)

/-! ## C10: request assembly (src/dino-server/src/lib.rs, `assemble_req`)

`assemble_req` copies the matched params, converts each header entry with
`(k.to_string(), v.to_str().unwrap().to_string())` — `HeaderValue::to_str`
errs on any byte that is not visible ASCII (or tab), so the `unwrap`
panics there — collects headers into a `HashMap` (duplicates: last value
wins), and decodes the body with
`body.and_then(|v| String::from_utf8(v.to_vec()).ok())`, dropping a
non-UTF-8 body to `None`.  Byte-level data (header values, body) is
modelled as `List Nat` of byte values; a Rust `String` is its UTF-8
bytes. -/

/-- The `http` crate's `HeaderValue::to_str` acceptance: visible ASCII or
tab. -/
def isVisibleAscii (b : Nat) : Bool := (32 ≤ b && b < 127) || b == 9

/-- Is `b` a UTF-8 continuation byte? -/
def isCont (b : Nat) : Bool := 128 ≤ b && b ≤ 191

/-- UTF-8 validity (what `String::from_utf8` accepts): rejects overlong
encodings, surrogates and values beyond U+10FFFF. -/
def utf8Valid : List Nat → Bool
  | [] => true
  | b1 :: t1 =>
      if b1 ≤ 127 then utf8Valid t1
      else if 194 ≤ b1 && b1 ≤ 223 then
        match t1 with
        | b2 :: t2 => isCont b2 && utf8Valid t2
        | [] => false
      else if b1 = 224 then
        match t1 with
        | b2 :: b3 :: t3 => (160 ≤ b2 && b2 ≤ 191) && isCont b3 && utf8Valid t3
        | _ => false
      else if (225 ≤ b1 && b1 ≤ 236) || b1 = 238 || b1 = 239 then
        match t1 with
        | b2 :: b3 :: t3 => isCont b2 && isCont b3 && utf8Valid t3
        | _ => false
      else if b1 = 237 then
        match t1 with
        | b2 :: b3 :: t3 => (128 ≤ b2 && b2 ≤ 159) && isCont b3 && utf8Valid t3
        | _ => false
      else if b1 = 240 then
        match t1 with
        | b2 :: b3 :: b4 :: t4 => (144 ≤ b2 && b2 ≤ 191) && isCont b3 && isCont b4 && utf8Valid t4
        | _ => false
      else if 241 ≤ b1 && b1 ≤ 243 then
        match t1 with
        | b2 :: b3 :: b4 :: t4 => isCont b2 && isCont b3 && isCont b4 && utf8Valid t4
        | _ => false
      else if b1 = 244 then
        match t1 with
        | b2 :: b3 :: b4 :: t4 => (128 ≤ b2 && b2 ≤ 143) && isCont b3 && isCont b4 && utf8Valid t4
        | _ => false
      else false

/-- The request `Parts` reaching `assemble_req`: method, URI and the
header iteration sequence (name, value bytes). -/
structure Parts where
  method : String
  uri : String
  headers : List (String × List Nat)
deriving DecidableEq

/-- The assembled `Req`, at byte level: header values as their (visible
ASCII) bytes, the body as its UTF-8 bytes. -/
structure AssembledReq where
  method : String
  url : String
  query : List (String × String)
  params : List (String × String)
  headers : List (String × List Nat)
  body : Option (List Nat)
deriving DecidableEq

/-- A computation that either panics (an `unwrap` of `Err`) or produces a
value. -/
inductive Unwrapped (α : Type) where
  | panicked
  | value (a : α)
deriving DecidableEq

/-- `iter().collect::<HashMap<_, _>>()`: sequential insertion; a later
entry replaces an earlier one with the same key. -/
def collectLastWins {α : Type} (l : List (String × α)) : List (String × α) :=
  l.foldl (fun acc p => assocSet acc p.1 p.2) []

/-- The value the LAST entry of `l` with key `k` carries, if any. -/
def lastLookup {α : Type} : List (String × α) → String → Option α
  | [], _ => none
  | p :: t, k =>
      match lastLookup t k with
      | some v => some v
      | none => if p.1 = k then some p.2 else none

theorem collect_foldl_lookup {α : Type} (l : List (String × α))
    (acc : List (String × α)) (k : String) :
    assocLookup (l.foldl (fun a p => assocSet a p.1 p.2) acc) k =
      match lastLookup l k with
      | some v => some v
      | none => assocLookup acc k := by
  induction l generalizing acc with
  | nil => rfl
  | cons p t ih =>
    simp only [List.foldl_cons, lastLookup]
    rw [ih]
    cases htail : lastLookup t k with
    | some v => rfl
    | none =>
      rw [assocLookup_set]
      by_cases hp : p.1 = k <;> simp [hp]

theorem collectLastWins_lookup {α : Type} (l : List (String × α)) (k : String) :
    assocLookup (collectLastWins l) k = lastLookup l k := by
  unfold collectLastWins
  rw [collect_foldl_lookup]
  cases lastLookup l k <;> rfl

/-- `assemble_req(matched, parts, query, body)`: panics when any header
value holds a byte outside visible ASCII; otherwise builds the `Req`,
collecting params and headers last-wins and dropping a non-UTF-8 body. -/
def assemble_req (params : List (String × String)) (parts : Parts)
    (query : List (String × String)) (body : Option (List Nat)) :
    Unwrapped AssembledReq :=
  if parts.headers.all (fun kv => kv.2.all isVisibleAscii) then
    Unwrapped.value
      { method := parts.method, url := parts.uri, query := query,
        params := collectLastWins params,
        headers := collectLastWins parts.headers,
        body := body.bind (fun v => if utf8Valid v then some v else none) }
  else Unwrapped.panicked

/-- C10: `assemble_req` is not total over header values — a header value
byte outside visible ASCII makes the `to_str().unwrap()` panic (first
conjunct, at the concrete byte `0xFF`); under the precondition that all
header values are visible ASCII it returns a request with one value per
header name (last wins) and a body that is dropped to `None` when not
UTF-8 (and kept when it is, and `None` when absent). -/
theorem C10_assemble_req :
    (assemble_req [] { method := "GET", uri := "/", headers := [("x-bad", [255])] } [] none =
      Unwrapped.panicked) ∧
    (∀ (params query : List (String × String)) (parts : Parts) (body : Option (List Nat)),
        parts.headers.all (fun kv => kv.2.all isVisibleAscii) = true →
        ∃ r, assemble_req params parts query body = Unwrapped.value r ∧
          r.method = parts.method ∧ r.url = parts.uri ∧
          (∀ k, assocLookup r.headers k = lastLookup parts.headers k) ∧
          (∀ b, body = some b → utf8Valid b = false → r.body = none) ∧
          (∀ b, body = some b → utf8Valid b = true → r.body = some b) ∧
          (body = none → r.body = none)) := by
  constructor
  · rfl
  · intro params query parts body hvis
    refine ⟨{ method := parts.method, url := parts.uri, query := query,
              params := collectLastWins params,
              headers := collectLastWins parts.headers,
              body := body.bind (fun v => if utf8Valid v then some v else none) },
        ?_, rfl, rfl, ?_, ?_, ?_, ?_⟩
    · simp only [assemble_req, hvis, if_true]
    · intro k
      exact collectLastWins_lookup parts.headers k
    · intro b hb hbad
      simp [hb, hbad]
    · intro b hb hok
      simp [hb, hok]
    · intro hb
      simp [hb]

theorem C10_assemble_req_witness :
    ∃ r,
      assemble_req []
          { method := "GET", uri := "/x", headers := [("a", [65]), ("a", [66])] }
          [] (some [195, 40]) = Unwrapped.value r ∧
      r.method = "GET" ∧ r.url = "/x" ∧
      (∀ k, assocLookup r.headers k =
        lastLookup ([("a", [65]), ("a", [66])] : List (String × List Nat)) k) ∧
      (∀ b, (some [195, 40] : Option (List Nat)) = some b → utf8Valid b = false →
        r.body = none) ∧
      (∀ b, (some [195, 40] : Option (List Nat)) = some b → utf8Valid b = true →
        r.body = some b) ∧
      ((some [195, 40] : Option (List Nat)) = none → r.body = none) :=
  C10_assemble_req.2 [] []
    { method := "GET", uri := "/x", headers := [("a", [65]), ("a", [66])] }
    (some [195, 40]) (by decide)
